import Mathlib

/-!
Verification of the fischer repository against its design specification.

The public interface of the core lives in the Next.js API routes:
  frontend/app/api/applications/route.ts        (collection POST and GET)
  frontend/app/api/applications/[id]/route.ts   (per-application GET and PATCH)
These handlers keep a module-level in-memory array as the record store.  The
embedding below turns each handler into a pure function from the store (and
the ambient inputs the handler reads: the wall clock, the random draws) to the
new store and the JSON response.  JSON response bodies are modelled as records
whose optional fields are `none` exactly when the handler writes no such key.

The asynchronous extraction pipeline (Extraction Scheduler, Document
Extractor, Status Aggregator) is backend code that is not present in the
repository snapshot; only its README and its frontend callers are.  Those
components are modelled from the specification, in the `Pipeline` namespace,
with each definition marked `Modelled from the spec:`.
-/

namespace Fischer

/-- One uploaded document in the submission payload, as declared by the
route handler interface (filename, base64 content, content type). -/
structure DocumentPayload where
  filename : String
  content : String
  content_type : String
deriving Repr, DecidableEq

/-- The submission payload read from the request body.  The three fields the
handler validates at runtime are `Option String`: `none` models a key absent
from the JSON body, `some ""` a present but empty value; both are falsy in
the JavaScript check.  The remaining fields are typed as the handler
interface declares them and are never inspected by the validation. -/
structure ApplicationData where
  company_name : Option String
  primary_business_model : Option String
  business_model_other : Option String := none
  current_stage : Option String
  funding_amount_seeking : Int
  funding_currency : String
  primary_use_of_funds : List String
  use_of_funds_other : Option String := none
  timeline_for_closing : String
  monthly_revenue_gmv : Int
  monthly_burn_rate : Int
  team_size : Int
  key_revenue_driver : String
  revenue_driver_other : Option String := none
  founder_linkedin_urls : List String
  documents : List DocumentPayload
deriving Repr, DecidableEq

/-- Truthiness of an optional string field, as tested by `!data.field` in the
handler: absent (`undefined`) and the empty string are falsy. -/
def truthy : Option String → Bool
  | none => false
  | some s => s != ""

/-- A stored application record: the submitted data spread together with the
assigned `id` (`Date.now().toString()`) and the `submitted_at` timestamp. -/
structure StoredApplication where
  data : ApplicationData
  id : String
  submitted_at : String
deriving Repr, DecidableEq

/-- The JSON body and HTTP status produced by the collection POST handler.
A field is `none` when the handler writes no such key into the body.  The
keys `accepted` and `processing_status` never appear in the handler code;
they are carried here so that statements about their presence can be made. -/
structure SubmitResponse where
  status : Nat
  error : Option String := none
  success : Option Bool := none
  id : Option String := none
  message : Option String := none
  accepted : Option Bool := none
  processing_status : Option String := none
deriving Repr, DecidableEq

namespace ApplicationsApi

/-- The POST handler of `app/api/applications/route.ts`: validate the three
required fields, build the new record with `id := Date.now().toString()` and
the ISO timestamp, push it onto the module-level array, and answer 201.  The
wall clock reading is the explicit parameter `now` (milliseconds) and `nowISO`
(the ISO string of the same instant). -/
def POST (store : List StoredApplication) (data : ApplicationData)
    (now : Nat) (nowISO : String) : List StoredApplication × SubmitResponse :=
  if !truthy data.company_name || !truthy data.primary_business_model
      || !truthy data.current_stage then
    (store, { status := 400, error := some "Missing required fields" })
  else
    let newApplication : StoredApplication :=
      { data := data, id := Nat.repr now, submitted_at := nowISO }
    (store ++ [newApplication],
      { status := 201
        success := some true
        id := some newApplication.id
        message := some "Application submitted successfully" })

/-- One random draw consumed by the GET handler while enhancing one listed
application: the drawn score value, the index draws for risk level and
review status, and the outcome of the coin flip for red flags.  The values
are inputs of the embedding because `Math.random()` is ambient state. -/
structure Draw where
  score : Rat
  risk_ix : Nat
  status_ix : Nat
  flag_coin : Bool
deriving Repr, DecidableEq

/-- One element of the GET response list: the stored application spread
together with the mock enhancement fields. -/
structure EnhancedApplication where
  app : StoredApplication
  ai_score : Rat
  risk_level : String
  status : String
  key_insights : List String
  red_flags : List String
deriving Repr, DecidableEq

/-- The enhancement the GET handler maps over the sliced applications:
`ai_score` is the drawn score, `risk_level` and `status` index constant
arrays by the drawn index (always in range in the source, where it is
`Math.floor(Math.random() * 3)` resp. `* 4`), `key_insights` is constant,
and `red_flags` is empty when the drawn coin is above one half. -/
def enhance (d : Draw) (app : StoredApplication) : EnhancedApplication :=
  { app := app
    ai_score := d.score
    risk_level := ["LOW", "MEDIUM", "HIGH"].getD (d.risk_ix % 3) "LOW"
    status := ["PENDING", "REVIEWED", "APPROVED", "REJECTED"].getD (d.status_ix % 4) "PENDING"
    key_insights := ["Strong product-market fit indicators", "Experienced founding team",
      "Healthy unit economics"]
    red_flags := if d.flag_coin then []
      else ["High customer acquisition costs", "Competitive market landscape"] }

/-- Map the enhancement over a list, drawing fresh randomness (stream
position `i`) for each element, in order, as the source `map` does. -/
def enhanceFrom (draws : Nat → Draw) : Nat → List StoredApplication → List EnhancedApplication
  | _, [] => []
  | i, a :: rest => enhance (draws i) a :: enhanceFrom draws (i + 1) rest

/-- The JSON body and HTTP status produced by the collection GET handler. -/
structure ListResponse where
  status : Nat
  applications : List EnhancedApplication := []
  total : Nat := 0
  limit : Nat := 0
  offset : Nat := 0
  error : Option String := none
deriving Repr, DecidableEq

/-- The GET handler of `app/api/applications/route.ts`: parse `limit`
(default 10) and `offset` (default 0) from the query string, slice the
stored array from `offset` to `offset + limit`, enhance each element with
mock draw values, and answer the page together with the total store size.
The query parameters are modelled as parsed non-negative numbers, `none`
when the parameter is absent (the `|| "10"` resp. `|| "0"` default). -/
def GET (store : List StoredApplication) (limitP offsetP : Option Nat)
    (draws : Nat → Draw) : List StoredApplication × ListResponse :=
  let limit := limitP.getD 10
  let offset := offsetP.getD 0
  let enhancedApplications := enhanceFrom draws 0 ((store.drop offset).take limit)
  (store,
    { status := 200
      applications := enhancedApplications
      total := store.length
      limit := limit
      offset := offset })

end ApplicationsApi

/-- The `detailed_analysis` block of the mock per-application payload. -/
structure DetailedAnalysisBlock where
  market_size : String
  competition : String
  team_assessment : String
  financial_health : String
  risk_factors : String
deriving Repr, DecidableEq

/-- One entry of the `documents` array of the mock per-application payload. -/
structure MockDocumentRef where
  filename : String
  type : String
deriving Repr, DecidableEq

/-- The mock application payload built by the per-application GET handler. -/
structure MockApplication where
  id : String
  company_name : String
  primary_business_model : String
  current_stage : String
  funding_amount_seeking : Int
  funding_currency : String
  monthly_revenue_gmv : Int
  monthly_burn_rate : Int
  team_size : Int
  timeline_for_closing : String
  submitted_at : String
  ai_score : Rat
  risk_level : String
  status : String
  key_insights : List String
  red_flags : List String
  detailed_analysis : DetailedAnalysisBlock
  documents : List MockDocumentRef
deriving Repr, DecidableEq

/-- The constant payload of `app/api/applications/[id]/route.ts` GET, built
for every requested identifier; only `id` and the `submitted_at` clock
reading vary. -/
def mockApplication (id : String) (nowISO : String) : MockApplication :=
  { id := id
    company_name := "TechFlow AI Solutions"
    primary_business_model := "SaaS/Software"
    current_stage := "Early Revenue (<₹1Cr ARR)"
    funding_amount_seeking := 25000000
    funding_currency := "INR"
    monthly_revenue_gmv := 850000
    monthly_burn_rate := 450000
    team_size := 18
    timeline_for_closing := "3-6 months"
    submitted_at := nowISO
    ai_score := (41 : Rat) / 5
    risk_level := "LOW"
    status := "PENDING"
    key_insights := ["Strong product-market fit indicators",
      "Experienced founding team with domain expertise",
      "Healthy unit economics with 75% gross margin",
      "Growing market with clear differentiation"]
    red_flags := []
    detailed_analysis :=
      { market_size := "Large addressable market with growth potential"
        competition := "Moderate competition with clear differentiation"
        team_assessment := "Strong technical and business expertise"
        financial_health := "Positive unit economics with sustainable growth"
        risk_factors := "Low overall risk profile" }
    documents := [{ filename := "pitch_deck.pdf", type := "application/pdf" },
      { filename := "financial_model.xlsx",
        type := "application/vnd.openxmlformats-officedocument.spreadsheetml.sheet" },
      { filename := "business_plan.docx",
        type := "application/vnd.openxmlformats-officedocument.wordprocessingml.document" }] }

/-- The JSON body and HTTP status produced by the per-application GET
handler; `body` is `none` only on the error path. -/
structure ByIdGetResponse where
  status : Nat
  body : Option MockApplication := none
  error : Option String := none
deriving Repr, DecidableEq

/-- The JSON body and HTTP status produced by the per-application PATCH
handler. -/
structure PatchResponse where
  status : Nat
  success : Option Bool := none
  message : Option String := none
  error : Option String := none
deriving Repr, DecidableEq

namespace ApplicationIdApi

/-- The GET handler of `app/api/applications/[id]/route.ts`: it never reads
the store and answers the constant mock payload for every identifier, with
status 200.  The store is threaded to state what the handler does to it. -/
def GET (store : List StoredApplication) (id : String) (nowISO : String) :
    List StoredApplication × ByIdGetResponse :=
  (store, { status := 200, body := some (mockApplication id nowISO) })

/-- The PATCH handler of `app/api/applications/[id]/route.ts`: it logs the
requested update, touches neither the store nor any record, and answers a
constant success body.  The update body is an arbitrary value of any type
because the handler never inspects it. -/
def PATCH {α : Type} (store : List StoredApplication) (id : String) (updates : α) :
    List StoredApplication × PatchResponse :=
  (store, { status := 200, success := some true, message := some "Application updated successfully" })

end ApplicationIdApi

/-- A submission payload missing its company name, used as concrete input. -/
def invalidData : ApplicationData :=
  { company_name := none
    primary_business_model := some "SaaS"
    current_stage := some "MVP"
    funding_amount_seeking := 25000000
    funding_currency := "INR"
    primary_use_of_funds := ["Product Development"]
    timeline_for_closing := "3-6 months"
    monthly_revenue_gmv := 850000
    monthly_burn_rate := 450000
    team_size := 18
    key_revenue_driver := "Subscriptions"
    founder_linkedin_urls := []
    documents := [] }

/-- A complete valid submission payload, used as concrete input. -/
def validData : ApplicationData :=
  { company_name := some "Test Inc"
    primary_business_model := some "SaaS"
    current_stage := some "MVP"
    funding_amount_seeking := 1000000
    funding_currency := "INR"
    primary_use_of_funds := ["Product Development"]
    timeline_for_closing := "3-6 months"
    monthly_revenue_gmv := 100000
    monthly_burn_rate := 50000
    team_size := 5
    key_revenue_driver := "Subscriptions"
    founder_linkedin_urls := ["https://linkedin.com/in/founder"]
    documents := [] }

/-- A second complete valid submission payload, distinct from `validData`. -/
def validDataB : ApplicationData :=
  { company_name := some "Other Corp"
    primary_business_model := some "Marketplace"
    current_stage := some "Growth"
    funding_amount_seeking := 2000000
    funding_currency := "USD"
    primary_use_of_funds := ["Hiring"]
    timeline_for_closing := "6-12 months"
    monthly_revenue_gmv := 300000
    monthly_burn_rate := 80000
    team_size := 12
    key_revenue_driver := "Commissions"
    founder_linkedin_urls := []
    documents := [] }

/-- A fixed draw stream for concrete evaluations of the GET handler. -/
def fixedDraws : Nat → ApplicationsApi.Draw :=
  fun _ => { score := 8, risk_ix := 0, status_ix := 0, flag_coin := true }

/-- A submission payload passes the POST validation: all three required
fields are present and non-empty. -/
def validPayload (d : ApplicationData) : Prop :=
  truthy d.company_name = true ∧ truthy d.primary_business_model = true
    ∧ truthy d.current_stage = true

instance (d : ApplicationData) : Decidable (validPayload d) := by
  unfold validPayload
  infer_instance

/-- The numeric value of a decimal digit character, inverse to
`Nat.digitChar` on digits below ten; used to read back the decimal string
the id assignment produces. -/
def digitVal (c : Char) : Nat :=
  if c = '0' then 0 else
  if c = '1' then 1 else
  if c = '2' then 2 else
  if c = '3' then 3 else
  if c = '4' then 4 else
  if c = '5' then 5 else
  if c = '6' then 6 else
  if c = '7' then 7 else
  if c = '8' then 8 else
  if c = '9' then 9 else 0

/-- The number denoted by a decimal digit string, folded left with
accumulator `a`. -/
def digitsValFrom (a : Nat) (cs : List Char) : Nat :=
  cs.foldl (fun acc c => 10 * acc + digitVal c) a

/-- The number denoted by the character data of a string. -/
def stringNatVal (s : String) : Nat :=
  digitsValFrom 0 s.data

namespace Pipeline

/-- Per-document extraction state, as in the data model section of the
specification. -/
inductive DocExtractionStatus where
  | PENDING
  | PROCESSING
  | SUCCESS
  | FAILED
deriving Repr, DecidableEq

/-- Application-level processing state, as in the data model section of the
specification. -/
inductive AppProcessingStatus where
  | PENDING
  | PROCESSING
  | COMPLETED
  | FAILED
deriving Repr, DecidableEq

/-- A document extraction state is terminal when no further automatic
transition occurs from it. -/
def terminal : DocExtractionStatus → Bool
  | .SUCCESS => true
  | .FAILED => true
  | _ => false

/-- One attached document tracked by the pipeline. -/
structure PipeDocument where
  field : String
  extraction_status : DocExtractionStatus
  extracted_content : Option String := none
  extraction_error : Option String := none
  attempt_count : Nat := 0
deriving Repr, DecidableEq

/-- One application record tracked by the pipeline; timestamps are
milliseconds. -/
structure PipeApplication where
  id : String
  submitted_at : Nat
  documents : List PipeDocument
  processing_status : AppProcessingStatus
  processing_started_at : Option Nat := none
  processing_completed_at : Option Nat := none
deriving Repr, DecidableEq

/-- Modelled from the spec: the Status Aggregator recomputation (backend
code absent from the snapshot).  It scans all documents current extraction
states with this precedence: if any document is still PENDING or PROCESSING
the application is PROCESSING; else (all terminal) COMPLETED. -/
def aggregateProcessingStatus (docs : List DocExtractionStatus) : AppProcessingStatus :=
  if docs.any (fun s => decide (s = .PENDING ∨ s = .PROCESSING)) then .PROCESSING
  else .COMPLETED

/-- Replace the element at an index, identity when the index is out of
range. -/
def modifyAt {α : Type} (f : α → α) : Nat → List α → List α
  | _, [] => []
  | 0, a :: rest => f a :: rest
  | i + 1, a :: rest => a :: modifyAt f i rest

/-- Modelled from the spec: the Status Aggregator step on one per-document
terminal report (backend code absent from the snapshot).  It writes the
reported terminal state, content and error into the document at the reported
index, recomputes the application-level status from all documents current
extraction states, and sets `processing_completed_at` on first completion
only. -/
def applyTerminalReport (app : PipeApplication) (ix : Nat)
    (st : DocExtractionStatus) (text err : Option String) (now : Nat) : PipeApplication :=
  let upd : PipeDocument → PipeDocument := fun d =>
    { d with extraction_status := st, extracted_content := text, extraction_error := err }
  let docs := modifyAt upd ix app.documents
  let nextStat := aggregateProcessingStatus (docs.map (fun d => d.extraction_status))
  { app with
    documents := docs
    processing_status := nextStat
    processing_completed_at :=
      if nextStat = .COMPLETED then
        match app.processing_completed_at with
        | some t => some t
        | none => some now
      else app.processing_completed_at }

/-- Modelled from the spec: the Status Aggregator action that marks an
application COMPLETED, setting `processing_completed_at` the first time
only (backend code absent from the snapshot). -/
def markCompleted (app : PipeApplication) (now : Nat) : PipeApplication :=
  { app with
    processing_status := .COMPLETED
    processing_completed_at :=
      match app.processing_completed_at with
      | some t => some t
      | none => some now }

/-- Modelled from the spec: the Extraction Scheduler (backend code absent
from the snapshot).  Given a record it reads the document list length N;
when N = 0 it immediately asks the Status Aggregator to mark the
application COMPLETED and dispatches nothing; otherwise it transitions the
application to PROCESSING and dispatches exactly one Document Extractor
invocation per document.  The second component is the number of dispatched
invocations. -/
def scheduleExtraction (app : PipeApplication) (now : Nat) : PipeApplication × Nat :=
  if app.documents.length = 0 then
    (markCompleted app now, 0)
  else
    ({ app with processing_status := .PROCESSING, processing_started_at := some now },
      app.documents.length)

/-- The read-only snapshot the Status Query Service answers. -/
structure StatusSnapshot where
  id : String
  processing_status : AppProcessingStatus
  submitted_at : Nat
  processing_started_at : Option Nat
  processing_completed_at : Option Nat
  documents_count : Nat
deriving Repr, DecidableEq

/-- Modelled from the spec: the Status Query Service projection of the
latest committed record (backend code absent from the snapshot). -/
def statusQuery (app : PipeApplication) : StatusSnapshot :=
  { id := app.id
    processing_status := app.processing_status
    submitted_at := app.submitted_at
    processing_started_at := app.processing_started_at
    processing_completed_at := app.processing_completed_at
    documents_count := app.documents.length }

/-- The typed outcome of one Extraction Capability call, as in the interface
section of the specification. -/
inductive ExtractOutcome where
  | Success (text : String) (metadata : String)
  | RetryableFailure (reason : String)
  | PermanentFailure (reason : String)
deriving Repr, DecidableEq

/-- Modelled from the spec: one Document Extractor attempt (backend code
absent from the snapshot).  The attempt count is incremented before the
invocation; a Success result becomes terminal SUCCESS with the content
stored; a PermanentFailure becomes terminal FAILED at once; a
RetryableFailure re-enters PROCESSING while `attempt_count < max_attempts`
and otherwise becomes terminal FAILED with the last error recorded.  The
capability is an oracle indexed by the attempt number. -/
def extractAttempt (cap : Nat → ExtractOutcome) (maxAttempts : Nat)
    (doc : PipeDocument) : PipeDocument :=
  let doc := { doc with attempt_count := doc.attempt_count + 1 }
  match cap doc.attempt_count with
  | .Success text _meta =>
      { doc with extraction_status := .SUCCESS, extracted_content := some text }
  | .PermanentFailure r =>
      { doc with extraction_status := .FAILED, extraction_error := some r }
  | .RetryableFailure r =>
      if doc.attempt_count < maxAttempts then
        { doc with extraction_status := .PROCESSING, extraction_error := some r }
      else
        { doc with extraction_status := .FAILED, extraction_error := some r }

/-- Modelled from the spec: the Document Extractor retry loop (backend code
absent from the snapshot), with explicit fuel.  It stops at a terminal
state and otherwise performs the next attempt. -/
def runExtractor (cap : Nat → ExtractOutcome) (maxAttempts : Nat) :
    Nat → PipeDocument → PipeDocument
  | 0, doc => doc
  | fuel + 1, doc =>
      if terminal doc.extraction_status then doc
      else runExtractor cap maxAttempts fuel (extractAttempt cap maxAttempts doc)

/-- A capability whose calls always answer a retryable timeout, used as
concrete input. -/
def alwaysRetryable : Nat → ExtractOutcome := fun _ => .RetryableFailure "timeout"

/-- A fresh PENDING document, used as concrete input. -/
def freshDoc : PipeDocument :=
  { field := "pitch_deck", extraction_status := .PENDING }

/-- An application with no documents, used as concrete input. -/
def emptyApp : PipeApplication :=
  { id := "42", submitted_at := 100, documents := [], processing_status := .PENDING }

end Pipeline

end Fischer

namespace Fischer

/-- `truthy` is false exactly on the missing and the empty field. -/
theorem truthy_eq_false_iff (o : Option String) :
    truthy o = false ↔ o = none ∨ o = some "" := by
  cases o with
  | none => simp [truthy]
  | some s => simp [truthy]

/-- Claim C1: if any of the three required fields (company name, primary business
model, current stage) is missing or empty, the POST handler answers a 400
validation error, produces no success fields, and leaves the store unchanged. -/
theorem post_validation_rejects (store : List StoredApplication)
    (data : ApplicationData) (now : Nat) (nowISO : String)
    (h : (data.company_name = none ∨ data.company_name = some "")
      ∨ (data.primary_business_model = none ∨ data.primary_business_model = some "")
      ∨ (data.current_stage = none ∨ data.current_stage = some "")) :
    (ApplicationsApi.POST store data now nowISO).1 = store
      ∧ (ApplicationsApi.POST store data now nowISO).2.status = 400
      ∧ (ApplicationsApi.POST store data now nowISO).2.error = some "Missing required fields"
      ∧ (ApplicationsApi.POST store data now nowISO).2.success = none
      ∧ (ApplicationsApi.POST store data now nowISO).2.id = none := by
  rcases h with h | h | h
  · have hf : truthy data.company_name = false := (truthy_eq_false_iff _).mpr h
    simp [ApplicationsApi.POST, hf]
  · have hf : truthy data.primary_business_model = false := (truthy_eq_false_iff _).mpr h
    simp [ApplicationsApi.POST, hf]
  · have hf : truthy data.current_stage = false := (truthy_eq_false_iff _).mpr h
    simp [ApplicationsApi.POST, hf]

/-- Claim C1 witness: the concrete invalid submission is rejected with 400 and the
empty store stays empty. -/
theorem post_validation_rejects_witness :
    (ApplicationsApi.POST [] invalidData 5 "2025-10-02T12:00:00Z").1 = []
      ∧ (ApplicationsApi.POST [] invalidData 5 "2025-10-02T12:00:00Z").2.status = 400
      ∧ (ApplicationsApi.POST [] invalidData 5 "2025-10-02T12:00:00Z").2.error
          = some "Missing required fields"
      ∧ (ApplicationsApi.POST [] invalidData 5 "2025-10-02T12:00:00Z").2.success = none
      ∧ (ApplicationsApi.POST [] invalidData 5 "2025-10-02T12:00:00Z").2.id = none :=
  post_validation_rejects [] invalidData 5 "2025-10-02T12:00:00Z" (Or.inl (Or.inl rfl))

/-- A terminal document extraction state is not PENDING or PROCESSING. -/
theorem terminal_not_waiting (s : Pipeline.DocExtractionStatus)
    (h : Pipeline.terminal s = true) :
    ¬(s = Pipeline.DocExtractionStatus.PENDING ∨ s = Pipeline.DocExtractionStatus.PROCESSING) := by
  cases s <;> simp_all [Pipeline.terminal]

/-- Claim C2: the application-level processing status is recomputed as a pure
function of the documents extraction states with this precedence: any
document PENDING or PROCESSING makes the application PROCESSING; all
documents terminal makes it COMPLETED, and in particular an application
whose documents are all FAILED reaches COMPLETED, not FAILED.  The Status
Aggregator step writes exactly this recomputation into the record. -/
theorem aggregator_status_precedence
    (docsW docsT docsF : List Pipeline.DocExtractionStatus)
    (app : Pipeline.PipeApplication) (ix : Nat) (st : Pipeline.DocExtractionStatus)
    (text err : Option String) (now : Nat)
    (hW : ∃ s ∈ docsW, s = Pipeline.DocExtractionStatus.PENDING
      ∨ s = Pipeline.DocExtractionStatus.PROCESSING)
    (hT : ∀ s ∈ docsT, Pipeline.terminal s = true)
    (hF : ∀ s ∈ docsF, s = Pipeline.DocExtractionStatus.FAILED) :
    Pipeline.aggregateProcessingStatus docsW = Pipeline.AppProcessingStatus.PROCESSING
      ∧ Pipeline.aggregateProcessingStatus docsT = Pipeline.AppProcessingStatus.COMPLETED
      ∧ Pipeline.aggregateProcessingStatus docsF = Pipeline.AppProcessingStatus.COMPLETED
      ∧ (Pipeline.applyTerminalReport app ix st text err now).processing_status
          = Pipeline.aggregateProcessingStatus
              ((Pipeline.applyTerminalReport app ix st text err now).documents.map
                (fun d => d.extraction_status)) := by
  refine ⟨?_, ?_, ?_, ?_⟩
  · obtain ⟨s, hs, hor⟩ := hW
    have hany : docsW.any
        (fun s => decide (s = Pipeline.DocExtractionStatus.PENDING
          ∨ s = Pipeline.DocExtractionStatus.PROCESSING)) = true := by
      refine List.any_eq_true.mpr ⟨s, hs, ?_⟩
      exact decide_eq_true hor
    unfold Pipeline.aggregateProcessingStatus
    rw [hany]
    simp
  · have hany : docsT.any
        (fun s => decide (s = Pipeline.DocExtractionStatus.PENDING
          ∨ s = Pipeline.DocExtractionStatus.PROCESSING)) = false := by
      rw [List.any_eq_false]
      intro s hs
      have := terminal_not_waiting s (hT s hs)
      simpa using this
    unfold Pipeline.aggregateProcessingStatus
    rw [hany]
    simp
  · have hany : docsF.any
        (fun s => decide (s = Pipeline.DocExtractionStatus.PENDING
          ∨ s = Pipeline.DocExtractionStatus.PROCESSING)) = false := by
      rw [List.any_eq_false]
      intro s hs
      have := hF s hs
      subst this
      simp
    unfold Pipeline.aggregateProcessingStatus
    rw [hany]
    simp
  · simp [Pipeline.applyTerminalReport]

/-- Claim C2 witness: the precedence evaluated at a still-working list, an
all-terminal list, an all-FAILED list, and a concrete aggregator step. -/
theorem aggregator_status_precedence_witness :
    Pipeline.aggregateProcessingStatus
        [Pipeline.DocExtractionStatus.SUCCESS, Pipeline.DocExtractionStatus.PENDING]
      = Pipeline.AppProcessingStatus.PROCESSING
    ∧ Pipeline.aggregateProcessingStatus
        [Pipeline.DocExtractionStatus.SUCCESS, Pipeline.DocExtractionStatus.FAILED]
      = Pipeline.AppProcessingStatus.COMPLETED
    ∧ Pipeline.aggregateProcessingStatus
        [Pipeline.DocExtractionStatus.FAILED, Pipeline.DocExtractionStatus.FAILED]
      = Pipeline.AppProcessingStatus.COMPLETED
    ∧ (Pipeline.applyTerminalReport Pipeline.emptyApp 0
          Pipeline.DocExtractionStatus.FAILED none (some "bad") 7).processing_status
      = Pipeline.aggregateProcessingStatus
          ((Pipeline.applyTerminalReport Pipeline.emptyApp 0
              Pipeline.DocExtractionStatus.FAILED none (some "bad") 7).documents.map
            (fun d => d.extraction_status)) :=
  aggregator_status_precedence
    [Pipeline.DocExtractionStatus.SUCCESS, Pipeline.DocExtractionStatus.PENDING]
    [Pipeline.DocExtractionStatus.SUCCESS, Pipeline.DocExtractionStatus.FAILED]
    [Pipeline.DocExtractionStatus.FAILED, Pipeline.DocExtractionStatus.FAILED]
    Pipeline.emptyApp 0 Pipeline.DocExtractionStatus.FAILED none (some "bad") 7
    ⟨Pipeline.DocExtractionStatus.PENDING, by simp, Or.inl rfl⟩
    (by decide) (by decide)

/-- Claim C3: an application submitted with zero documents dispatches no
Document Extractor invocation and its status query immediately answers
processing status COMPLETED. -/
theorem zero_documents_completed (app : Pipeline.PipeApplication) (now : Nat)
    (h : app.documents = []) :
    (Pipeline.scheduleExtraction app now).2 = 0
      ∧ (Pipeline.scheduleExtraction app now).1.processing_status
          = Pipeline.AppProcessingStatus.COMPLETED
      ∧ (Pipeline.statusQuery (Pipeline.scheduleExtraction app now).1).processing_status
          = Pipeline.AppProcessingStatus.COMPLETED := by
  simp [Pipeline.scheduleExtraction, Pipeline.markCompleted, Pipeline.statusQuery, h]

/-- Claim C3 witness: the concrete empty application is marked COMPLETED at
once with nothing dispatched. -/
theorem zero_documents_completed_witness :
    (Pipeline.scheduleExtraction Pipeline.emptyApp 100).2 = 0
      ∧ (Pipeline.scheduleExtraction Pipeline.emptyApp 100).1.processing_status
          = Pipeline.AppProcessingStatus.COMPLETED
      ∧ (Pipeline.statusQuery
            (Pipeline.scheduleExtraction Pipeline.emptyApp 100).1).processing_status
          = Pipeline.AppProcessingStatus.COMPLETED :=
  zero_documents_completed Pipeline.emptyApp 100 rfl

/-- Claim C9: the listing GET, the per-application GET and the
per-application PATCH leave the stored records untouched: each handler
returns the store exactly as it received it, so every stored record keeps
its documents, field values and identity. -/
theorem read_and_patch_leave_store_unchanged {α : Type}
    (store : List StoredApplication) (limitP offsetP : Option Nat)
    (draws : Nat → ApplicationsApi.Draw) (id nowISO : String) (updates : α) :
    (ApplicationsApi.GET store limitP offsetP draws).1 = store
      ∧ (ApplicationIdApi.GET store id nowISO).1 = store
      ∧ (ApplicationIdApi.PATCH store id updates).1 = store :=
  ⟨rfl, rfl, rfl⟩

/-- Enhancing a slice only wraps each stored application: projecting the
enhanced page back to the stored records recovers the slice. -/
theorem enhanceFrom_map_app (draws : Nat → ApplicationsApi.Draw) :
    ∀ (l : List StoredApplication) (i : Nat),
      (ApplicationsApi.enhanceFrom draws i l).map (fun e => e.app) = l := by
  intro l
  induction l with
  | nil => intro i; simp [ApplicationsApi.enhanceFrom]
  | cons a rest ih =>
    intro i
    simp [ApplicationsApi.enhanceFrom, ApplicationsApi.enhance, ih]

/-- Enhancement preserves the page length. -/
theorem enhanceFrom_length (draws : Nat → ApplicationsApi.Draw) :
    ∀ (l : List StoredApplication) (i : Nat),
      (ApplicationsApi.enhanceFrom draws i l).length = l.length := by
  intro l
  induction l with
  | nil => intro i; simp [ApplicationsApi.enhanceFrom]
  | cons a rest ih =>
    intro i
    simp [ApplicationsApi.enhanceFrom, ih]

/-- Claim C10: with limit L (default ten when absent) and offset O (default
zero when absent), the listing GET answers exactly the contiguous slice of
the stored applications from index O up to O + L, hence at most L entries
and none when O is at or beyond the end, and its total field counts all
stored applications independently of L and O. -/
theorem list_pagination_slice (store : List StoredApplication)
    (limitP offsetP : Option Nat) (draws : Nat → ApplicationsApi.Draw) :
    ((ApplicationsApi.GET store limitP offsetP draws).2.applications.map (fun e => e.app)
        = (store.drop (offsetP.getD 0)).take (limitP.getD 10))
      ∧ (ApplicationsApi.GET store limitP offsetP draws).2.applications.length
          = min (limitP.getD 10) (store.length - offsetP.getD 0)
      ∧ (store.length ≤ offsetP.getD 0
          → (ApplicationsApi.GET store limitP offsetP draws).2.applications = [])
      ∧ (ApplicationsApi.GET store limitP offsetP draws).2.total = store.length
      ∧ (ApplicationsApi.GET store limitP offsetP draws).2.limit = limitP.getD 10
      ∧ (ApplicationsApi.GET store limitP offsetP draws).2.offset = offsetP.getD 0 := by
  refine ⟨?_, ?_, ?_, rfl, rfl, rfl⟩
  · simp [ApplicationsApi.GET, enhanceFrom_map_app]
  · simp [ApplicationsApi.GET, enhanceFrom_length]
  · intro hout
    have hnil : (store.drop (offsetP.getD 0)).take (limitP.getD 10) = [] := by
      have : store.drop (offsetP.getD 0) = [] := List.drop_eq_nil_of_le hout
      simp [this]
    simp [ApplicationsApi.GET, hnil, ApplicationsApi.enhanceFrom]

/-- A concrete stored record, used as concrete input. -/
theorem list_pagination_slice_witness :
    ((ApplicationsApi.GET
          [{ data := validData, id := "5", submitted_at := "t" }]
          (some 1) (some 3) fixedDraws).2.applications.map (fun e => e.app) = [])
      ∧ (ApplicationsApi.GET
          [{ data := validData, id := "5", submitted_at := "t" }]
          (some 1) (some 3) fixedDraws).2.applications = []
      ∧ (ApplicationsApi.GET
          [{ data := validData, id := "5", submitted_at := "t" }]
          (some 1) (some 3) fixedDraws).2.total = 1 := by
  have h := list_pagination_slice
    [{ data := validData, id := "5", submitted_at := "t" }] (some 1) (some 3) fixedDraws
  refine ⟨?_, h.2.2.1 (by decide), h.2.2.2.1⟩
  have := h.1
  simpa using this

/-- The POST validation condition evaluates to false on a valid payload. -/
theorem post_condition_false (data : ApplicationData) (h : validPayload data) :
    (!truthy data.company_name || !truthy data.primary_business_model
      || !truthy data.current_stage) = false := by
  obtain ⟨h1, h2, h3⟩ := h
  simp [h1, h2, h3]

/-- Claim C4 (amended): the success response of a valid submission carries
the new application id and `success: true` at HTTP 201; it carries no
`accepted` key and no `processing_status` key. -/
theorem post_success_response_shape (store : List StoredApplication)
    (data : ApplicationData) (now : Nat) (nowISO : String) (h : validPayload data) :
    (ApplicationsApi.POST store data now nowISO).2.status = 201
      ∧ (ApplicationsApi.POST store data now nowISO).2.success = some true
      ∧ (ApplicationsApi.POST store data now nowISO).2.id = some (Nat.repr now)
      ∧ (ApplicationsApi.POST store data now nowISO).2.accepted = none
      ∧ (ApplicationsApi.POST store data now nowISO).2.processing_status = none := by
  have hc := post_condition_false data h
  simp [ApplicationsApi.POST, hc]

/-- Claim C4 witness: the concrete valid submission answers 201 with
`success: true` and id "5", and neither `accepted` nor `processing_status`. -/
theorem post_success_response_shape_witness :
    (ApplicationsApi.POST [] validData 5 "t").2.status = 201
      ∧ (ApplicationsApi.POST [] validData 5 "t").2.success = some true
      ∧ (ApplicationsApi.POST [] validData 5 "t").2.id = some (Nat.repr 5)
      ∧ (ApplicationsApi.POST [] validData 5 "t").2.accepted = none
      ∧ (ApplicationsApi.POST [] validData 5 "t").2.processing_status = none :=
  post_success_response_shape [] validData 5 "t" (by decide)

/-- Claim C4 counterexample: the success response of the concrete valid
submission contains neither `accepted: true` nor `processing_status`
"PENDING", refuting the claimed response shape. -/
theorem post_response_no_accepted_field :
    ¬((ApplicationsApi.POST [] validData 5 "t").2.accepted = some true
      ∧ (ApplicationsApi.POST [] validData 5 "t").2.processing_status = some "PENDING") := by
  decide

/-- Claim C5 (amended): the per-application GET answers HTTP 200 with the
constant mock payload echoing the requested identifier, for every
identifier, stored or not; it never answers NotFound. -/
theorem byid_get_always_mock_payload (store : List StoredApplication)
    (id nowISO : String) :
    (ApplicationIdApi.GET store id nowISO).2.status = 200
      ∧ (ApplicationIdApi.GET store id nowISO).2.body = some (mockApplication id nowISO)
      ∧ ((ApplicationIdApi.GET store id nowISO).2.body.map (fun m => m.id)) = some id
      ∧ (ApplicationIdApi.GET store id nowISO).2.status ≠ 404 := by
  refine ⟨rfl, rfl, rfl, ?_⟩
  simp [ApplicationIdApi.GET]

/-- Claim C5 counterexample: with an empty store, the GET for the unknown
identifier "missing" answers 200 with a payload, not NotFound. -/
theorem byid_get_unknown_id_returns_payload :
    (ApplicationIdApi.GET [] "missing" "t").2.status = 200
      ∧ (ApplicationIdApi.GET [] "missing" "t").2.body ≠ none
      ∧ (ApplicationIdApi.GET [] "missing" "t").2.status ≠ 404 := by
  refine ⟨rfl, ?_, ?_⟩ <;> simp [ApplicationIdApi.GET]

/-- Claim C6: a valid submission appends exactly its new record (with the
assigned id and the submission timestamp) to the store before the 201
response is produced, so the listing total after the POST exceeds the
listing total before it by exactly one. -/
theorem post_persists_before_response (store : List StoredApplication)
    (data : ApplicationData) (now : Nat) (nowISO : String)
    (limitP offsetP : Option Nat) (draws : Nat → ApplicationsApi.Draw)
    (h : validPayload data) :
    (ApplicationsApi.POST store data now nowISO).1
        = store ++ [{ data := data, id := Nat.repr now, submitted_at := nowISO }]
      ∧ (ApplicationsApi.POST store data now nowISO).2.status = 201
      ∧ (ApplicationsApi.GET (ApplicationsApi.POST store data now nowISO).1
            limitP offsetP draws).2.total
          = (ApplicationsApi.GET store limitP offsetP draws).2.total + 1 := by
  have hc := post_condition_false data h
  simp [ApplicationsApi.POST, hc, ApplicationsApi.GET]

/-- Claim C6 witness: submitting the concrete valid payload to the empty
store persists one record and raises the listing total from zero to one. -/
theorem post_persists_before_response_witness :
    (ApplicationsApi.POST [] validData 5 "t").1
        = [] ++ [{ data := validData, id := Nat.repr 5, submitted_at := "t" }]
      ∧ (ApplicationsApi.POST [] validData 5 "t").2.status = 201
      ∧ (ApplicationsApi.GET (ApplicationsApi.POST [] validData 5 "t").1
            none none fixedDraws).2.total
          = (ApplicationsApi.GET [] none none fixedDraws).2.total + 1 :=
  post_persists_before_response [] validData 5 "t" none none fixedDraws (by decide)

/-- `digitVal` inverts `Nat.digitChar` on decimal digits. -/
theorem digitVal_digitChar : ∀ m, m < 10 → digitVal (Nat.digitChar m) = m := by
  decide

/-- The digit fold over an appended list nests. -/
theorem digitsValFrom_append (a : Nat) (l1 l2 : List Char) :
    digitsValFrom a (l1 ++ l2) = digitsValFrom (digitsValFrom a l1) l2 := by
  unfold digitsValFrom
  exact List.foldl_append _ _ _ _

/-- Writing the decimal digits in front of an accumulator list only prepends
them: the accumulator is preserved verbatim at the tail. -/
theorem toDigitsCore_eq_append :
    ∀ (fuel n : Nat) (ds : List Char),
      Nat.toDigitsCore 10 fuel n ds = Nat.toDigitsCore 10 fuel n [] ++ ds := by
  intro fuel
  induction fuel with
  | zero => intro n ds; simp [Nat.toDigitsCore]
  | succ f ih =>
    intro n ds
    simp only [Nat.toDigitsCore]
    by_cases h : n / 10 = 0
    · simp [h]
    · simp only [h, if_false]
      rw [ih (n / 10) (Nat.digitChar (n % 10) :: ds), ih (n / 10) [Nat.digitChar (n % 10)]]
      simp

/-- Folding the digit values over the decimal digit list of `n` recovers `n`
on top of the shifted accumulator. -/
theorem digitsValFrom_toDigitsCore :
    ∀ (fuel n : Nat), n < fuel → ∀ (a : Nat),
      digitsValFrom a (Nat.toDigitsCore 10 fuel n [])
        = a * 10 ^ (Nat.toDigitsCore 10 fuel n []).length + n := by
  intro fuel
  induction fuel with
  | zero => intro n hn; omega
  | succ f ih =>
    intro n hn a
    simp only [Nat.toDigitsCore]
    by_cases h : n / 10 = 0
    · simp only [h, if_true]
      have hd : digitVal (Nat.digitChar (n % 10)) = n % 10 :=
        digitVal_digitChar (n % 10) (Nat.mod_lt n (by norm_num))
      simp only [digitsValFrom, List.foldl_cons, List.foldl_nil, hd,
        List.length_cons, List.length_nil, pow_one]
      omega
    · simp only [h, if_false]
      rw [toDigitsCore_eq_append f (n / 10) [Nat.digitChar (n % 10)]]
      have hltn : n / 10 < n := Nat.div_lt_self (by omega) (by norm_num)
      have hltf : n / 10 < f := by omega
      rw [digitsValFrom_append]
      rw [ih (n / 10) hltf a]
      have hd : digitVal (Nat.digitChar (n % 10)) = n % 10 :=
        digitVal_digitChar (n % 10) (Nat.mod_lt n (by norm_num))
      have hsplit : 10 * (n / 10) + n % 10 = n := by omega
      simp only [digitsValFrom, List.foldl_cons, List.foldl_nil, hd,
        List.length_append, List.length_cons, List.length_nil]
      rw [pow_succ]
      ring_nf
      omega

/-- Reading the decimal string of `n` back as a number recovers `n`. -/
theorem stringNatVal_repr (n : Nat) : stringNatVal (Nat.repr n) = n := by
  unfold stringNatVal Nat.repr Nat.toDigits
  have hdata : (List.asString (Nat.toDigitsCore 10 (n + 1) n [])).data
      = Nat.toDigitsCore 10 (n + 1) n [] := rfl
  rw [hdata]
  have := digitsValFrom_toDigitsCore (n + 1) n (Nat.lt_succ_self n) 0
  simpa using this

/-- The decimal string representation of naturals is injective. -/
theorem nat_repr_injective {m n : Nat} (h : Nat.repr m = Nat.repr n) : m = n := by
  have := congrArg stringNatVal h
  rwa [stringNatVal_repr, stringNatVal_repr] at this

/-- Claim C7 (amended): two successful submissions receive the millisecond
clock reading as id, so their ids are distinct whenever the two submissions
see distinct `Date.now()` values; in the same millisecond the assigned ids
collide. -/
theorem distinct_timestamps_distinct_ids
    (store1 store2 : List StoredApplication) (d1 d2 : ApplicationData)
    (now1 now2 : Nat) (iso1 iso2 : String)
    (h1 : validPayload d1) (h2 : validPayload d2) (hne : now1 ≠ now2) :
    (ApplicationsApi.POST store1 d1 now1 iso1).2.id = some (Nat.repr now1)
      ∧ (ApplicationsApi.POST store2 d2 now2 iso2).2.id = some (Nat.repr now2)
      ∧ (ApplicationsApi.POST store1 d1 now1 iso1).2.id
          ≠ (ApplicationsApi.POST store2 d2 now2 iso2).2.id := by
  have hc1 := post_condition_false d1 h1
  have hc2 := post_condition_false d2 h2
  refine ⟨by simp [ApplicationsApi.POST, hc1], by simp [ApplicationsApi.POST, hc2], ?_⟩
  simp only [ApplicationsApi.POST, hc1, hc2, Bool.false_eq_true, if_false]
  intro h
  exact hne (nat_repr_injective (Option.some.inj h))

/-- Claim C7 witness: submissions at milliseconds 5 and 6 get the distinct
ids "5" and "6". -/
theorem distinct_timestamps_distinct_ids_witness :
    (ApplicationsApi.POST [] validData 5 "t").2.id = some (Nat.repr 5)
      ∧ (ApplicationsApi.POST [] validDataB 6 "u").2.id = some (Nat.repr 6)
      ∧ (ApplicationsApi.POST [] validData 5 "t").2.id
          ≠ (ApplicationsApi.POST [] validDataB 6 "u").2.id :=
  distinct_timestamps_distinct_ids [] [] validData validDataB 5 6 "t" "u"
    (by decide) (by decide) (by decide)

/-- Claim C7 counterexample: two distinct successful submissions performed in
the same millisecond both succeed with 201 and are both stored, yet the two
stored records carry the same id "5" — the id is reused. -/
theorem same_millisecond_duplicate_ids :
    (ApplicationsApi.POST [] validData 5 "t").2.status = 201
      ∧ (ApplicationsApi.POST (ApplicationsApi.POST [] validData 5 "t").1
            validDataB 5 "t").2.status = 201
      ∧ ((ApplicationsApi.POST (ApplicationsApi.POST [] validData 5 "t").1
            validDataB 5 "t").1.map (fun a => a.id)) = ["5", "5"] := by
  decide

/-- The retry loop never leaves a terminal document state. -/
theorem runExtractor_terminal_fixed (cap : Nat → Pipeline.ExtractOutcome) (ma : Nat) :
    ∀ (fuel : Nat) (doc : Pipeline.PipeDocument),
      Pipeline.terminal doc.extraction_status = true →
      Pipeline.runExtractor cap ma fuel doc = doc := by
  intro fuel doc h
  cases fuel with
  | zero => rfl
  | succ f => simp [Pipeline.runExtractor, h]

/-- The retry loop composes over split fuel. -/
theorem runExtractor_add (cap : Nat → Pipeline.ExtractOutcome) (ma : Nat) :
    ∀ (f1 f2 : Nat) (doc : Pipeline.PipeDocument),
      Pipeline.runExtractor cap ma (f1 + f2) doc
        = Pipeline.runExtractor cap ma f2 (Pipeline.runExtractor cap ma f1 doc) := by
  intro f1
  induction f1 with
  | zero =>
    intro f2 doc
    simp [Pipeline.runExtractor]
  | succ f ih =>
    intro f2 doc
    by_cases h : Pipeline.terminal doc.extraction_status = true
    · rw [runExtractor_terminal_fixed cap ma (f + 1) doc h,
        runExtractor_terminal_fixed cap ma (f + 1 + f2) doc h,
        runExtractor_terminal_fixed cap ma f2 doc h]
    · have hstep : Pipeline.runExtractor cap ma (f + 1) doc
          = Pipeline.runExtractor cap ma f (Pipeline.extractAttempt cap ma doc) := by
        simp [Pipeline.runExtractor, h]
      have hstep2 : Pipeline.runExtractor cap ma (f + 1 + f2) doc
          = Pipeline.runExtractor cap ma (f + f2) (Pipeline.extractAttempt cap ma doc) := by
        have : f + 1 + f2 = (f + f2) + 1 := by omega
        rw [this]
        simp [Pipeline.runExtractor, h]
      rw [hstep, hstep2, ih f2 (Pipeline.extractAttempt cap ma doc)]

/-- Under an always-retryable capability, an attempt that stays strictly
below the attempt budget re-enters PROCESSING with the count incremented. -/
theorem extractAttempt_retry_step (cap : Nat → Pipeline.ExtractOutcome) (ma : Nat)
    (doc : Pipeline.PipeDocument)
    (hcap : ∀ n, ∃ r, cap n = Pipeline.ExtractOutcome.RetryableFailure r)
    (hlt : doc.attempt_count + 1 < ma) :
    (Pipeline.extractAttempt cap ma doc).attempt_count = doc.attempt_count + 1
      ∧ (Pipeline.extractAttempt cap ma doc).extraction_status
          = Pipeline.DocExtractionStatus.PROCESSING := by
  obtain ⟨r, hr⟩ := hcap (doc.attempt_count + 1)
  simp [Pipeline.extractAttempt, hr, hlt]

/-- Under an always-retryable capability, the attempt that exhausts the
budget converts the document to terminal FAILED. -/
theorem extractAttempt_final_step (cap : Nat → Pipeline.ExtractOutcome) (ma : Nat)
    (doc : Pipeline.PipeDocument)
    (hcap : ∀ n, ∃ r, cap n = Pipeline.ExtractOutcome.RetryableFailure r)
    (heq : doc.attempt_count + 1 = ma) :
    (Pipeline.extractAttempt cap ma doc).attempt_count = ma
      ∧ (Pipeline.extractAttempt cap ma doc).extraction_status
          = Pipeline.DocExtractionStatus.FAILED := by
  obtain ⟨r, hr⟩ := hcap (doc.attempt_count + 1)
  have hnlt : ¬(doc.attempt_count + 1 < ma) := by omega
  constructor
  · simp [Pipeline.extractAttempt, hr, hnlt]
    omega
  · simp [Pipeline.extractAttempt, hr, hnlt]

/-- Under an always-retryable capability and with fuel keeping the count
strictly below the budget, the loop just accumulates attempts and stays
non-terminal. -/
theorem runExtractor_retry_under (cap : Nat → Pipeline.ExtractOutcome) (ma : Nat)
    (hcap : ∀ n, ∃ r, cap n = Pipeline.ExtractOutcome.RetryableFailure r) :
    ∀ (fuel : Nat) (doc : Pipeline.PipeDocument),
      Pipeline.terminal doc.extraction_status = false →
      doc.attempt_count + fuel < ma →
      (Pipeline.runExtractor cap ma fuel doc).attempt_count = doc.attempt_count + fuel
        ∧ Pipeline.terminal
            (Pipeline.runExtractor cap ma fuel doc).extraction_status = false := by
  intro fuel
  induction fuel with
  | zero =>
    intro doc hterm hlt
    simp [Pipeline.runExtractor, hterm]
  | succ f ih =>
    intro doc hterm hlt
    have hne : ¬(Pipeline.terminal doc.extraction_status = true) := by simp [hterm]
    have hstep : Pipeline.runExtractor cap ma (f + 1) doc
        = Pipeline.runExtractor cap ma f (Pipeline.extractAttempt cap ma doc) := by
      simp [Pipeline.runExtractor, hne]
    have hlt1 : doc.attempt_count + 1 < ma := by omega
    obtain ⟨hcount, hstat⟩ := extractAttempt_retry_step cap ma doc hcap hlt1
    have hterm2 : Pipeline.terminal
        (Pipeline.extractAttempt cap ma doc).extraction_status = false := by
      rw [hstat]; rfl
    have hlt2 : (Pipeline.extractAttempt cap ma doc).attempt_count + f < ma := by
      rw [hcount]; omega
    obtain ⟨ih1, ih2⟩ := ih (Pipeline.extractAttempt cap ma doc) hterm2 hlt2
    rw [hstep]
    refine ⟨?_, ih2⟩
    rw [ih1, hcount]
    omega

/-- Under an always-retryable capability, fuel that exactly exhausts the
budget drives the loop to terminal FAILED with the count at the budget. -/
theorem runExtractor_retry_reach (cap : Nat → Pipeline.ExtractOutcome) (ma : Nat)
    (hcap : ∀ n, ∃ r, cap n = Pipeline.ExtractOutcome.RetryableFailure r) :
    ∀ (fuel : Nat) (doc : Pipeline.PipeDocument),
      Pipeline.terminal doc.extraction_status = false →
      0 < fuel →
      doc.attempt_count + fuel = ma →
      (Pipeline.runExtractor cap ma fuel doc).extraction_status
          = Pipeline.DocExtractionStatus.FAILED
        ∧ (Pipeline.runExtractor cap ma fuel doc).attempt_count = ma := by
  intro fuel
  induction fuel with
  | zero =>
    intro doc hterm hpos heq
    omega
  | succ f ih =>
    intro doc hterm hpos heq
    have hne : ¬(Pipeline.terminal doc.extraction_status = true) := by simp [hterm]
    have hstep : Pipeline.runExtractor cap ma (f + 1) doc
        = Pipeline.runExtractor cap ma f (Pipeline.extractAttempt cap ma doc) := by
      simp [Pipeline.runExtractor, hne]
    rw [hstep]
    cases f with
    | zero =>
      have heq1 : doc.attempt_count + 1 = ma := by omega
      obtain ⟨hcount, hstat⟩ := extractAttempt_final_step cap ma doc hcap heq1
      simp [Pipeline.runExtractor, hstat, hcount]
    | succ g =>
      have hlt1 : doc.attempt_count + 1 < ma := by omega
      obtain ⟨hcount, hstat⟩ := extractAttempt_retry_step cap ma doc hcap hlt1
      have hterm2 : Pipeline.terminal
          (Pipeline.extractAttempt cap ma doc).extraction_status = false := by
        rw [hstat]; rfl
      have heq2 : (Pipeline.extractAttempt cap ma doc).attempt_count + (g + 1) = ma := by
        rw [hcount]; omega
      exact ih (Pipeline.extractAttempt cap ma doc) hterm2 (by omega) heq2

/-- Claim C8: for a document whose Extraction Capability calls always answer
RetryableFailure, the Document Extractor reaches terminal FAILED after
exactly `max_attempts` attempts: the attempt count equals `max_attempts` at
the FAILED transition, the document is not FAILED after any smaller number
of attempts, and extra fuel beyond the budget performs no further
invocation (the state is unchanged). -/
theorem extractor_retries_exactly_max (cap : Nat → Pipeline.ExtractOutcome)
    (ma k j : Nat) (doc : Pipeline.PipeDocument)
    (hcap : ∀ n, ∃ r, cap n = Pipeline.ExtractOutcome.RetryableFailure r)
    (hma : 0 < ma)
    (hdoc : doc.extraction_status = Pipeline.DocExtractionStatus.PENDING)
    (hcount : doc.attempt_count = 0) (hj : j < ma) :
    (Pipeline.runExtractor cap ma ma doc).extraction_status
        = Pipeline.DocExtractionStatus.FAILED
      ∧ (Pipeline.runExtractor cap ma ma doc).attempt_count = ma
      ∧ (Pipeline.runExtractor cap ma j doc).extraction_status
          ≠ Pipeline.DocExtractionStatus.FAILED
      ∧ (Pipeline.runExtractor cap ma j doc).attempt_count = j
      ∧ Pipeline.runExtractor cap ma (ma + k) doc
          = Pipeline.runExtractor cap ma ma doc := by
  have hterm : Pipeline.terminal doc.extraction_status = false := by
    rw [hdoc]; rfl
  obtain ⟨hfail, hcnt⟩ := runExtractor_retry_reach cap ma hcap ma doc hterm hma
    (by omega)
  obtain ⟨hjcnt, hjterm⟩ := runExtractor_retry_under cap ma hcap j doc hterm
    (by omega)
  refine ⟨hfail, hcnt, ?_, by rw [hjcnt, hcount]; omega, ?_⟩
  · intro hcontra
    rw [hcontra] at hjterm
    exact absurd hjterm (by simp [Pipeline.terminal])
  · rw [runExtractor_add cap ma ma k doc]
    exact runExtractor_terminal_fixed cap ma k _ (by rw [hfail]; rfl)

/-- Claim C8 witness: with the default budget of three attempts and a
capability that always times out, the fresh document fails terminally at
attempt count three, is still unfailed after two attempts, and five extra
fuel steps change nothing. -/
theorem extractor_retries_exactly_max_witness :
    (Pipeline.runExtractor Pipeline.alwaysRetryable 3 3 Pipeline.freshDoc).extraction_status
        = Pipeline.DocExtractionStatus.FAILED
      ∧ (Pipeline.runExtractor Pipeline.alwaysRetryable 3 3 Pipeline.freshDoc).attempt_count = 3
      ∧ (Pipeline.runExtractor Pipeline.alwaysRetryable 3 2 Pipeline.freshDoc).extraction_status
          ≠ Pipeline.DocExtractionStatus.FAILED
      ∧ (Pipeline.runExtractor Pipeline.alwaysRetryable 3 2 Pipeline.freshDoc).attempt_count = 2
      ∧ Pipeline.runExtractor Pipeline.alwaysRetryable 3 (3 + 5) Pipeline.freshDoc
          = Pipeline.runExtractor Pipeline.alwaysRetryable 3 3 Pipeline.freshDoc :=
  extractor_retries_exactly_max Pipeline.alwaysRetryable 3 5 2 Pipeline.freshDoc
    (fun _ => ⟨"timeout", rfl⟩) (by decide) rfl rfl (by decide)

end Fischer
